import Mathlib

set_option maxHeartbeats 1000000
set_option maxRecDepth 10000

/-!
Verification of the Hospital LOS feature-encoding pipeline
(src/app.py and src/cleaning_script.py).

A one-row pandas DataFrame is modelled as an association list from column
names to cell values; NaN is an explicit cell value.  The static lookup
tables (pickled artifacts loaded at process start) are parameters of the
embedded functions, mirroring the design-level signature
encode(record, targetSchema, lookupTables).  Fallible pandas operations
(indexing a missing column, dict indexing) return Option; none models a
raised exception.
-/

inductive Val where
  | str : String → Val
  | num : ℚ → Val
  | nan : Val
deriving DecidableEq

abbrev Row := List (String × Val)

def Val.isStr : Val → Bool
  | .str _ => true
  | _ => false

/-- df[c] for a one-row frame: value of the first column named c. -/
def colGet (df : Row) (c : String) : Option Val :=
  (df.find? (fun p => decide (p.1 = c))).map Prod.snd

/-- c in df.columns. -/
def hasCol (df : Row) (c : String) : Bool :=
  df.any (fun p => decide (p.1 = c))

/-- df[c] = v: overwrite the column in place when present, else append it,
as pandas column assignment does. -/
def setCol (df : Row) (c : String) (v : Val) : Row :=
  if hasCol df c then df.map (fun p => if p.1 = c then (c, v) else p)
  else df ++ [(c, v)]

/-- df.drop(columns=[c]) after the caller has checked presence. -/
def dropCol (df : Row) (c : String) : Row :=
  df.filter (fun p => decide (p.1 ≠ c))

/-- Dict / Series lookup with a string key. -/
def lookupS (m : List (String × ℚ)) (k : String) : Option ℚ :=
  (m.find? (fun p => decide (p.1 = k))).map Prod.snd

/-- Dict / Series lookup with a numeric key. -/
def lookupQ (m : List (ℚ × ℚ)) (k : ℚ) : Option ℚ :=
  (m.find? (fun p => decide (p.1 = k))).map Prod.snd

/-- Series.map with a string-keyed mapping: a key absent from the mapping
(or a non-string cell) becomes NaN, never an error. -/
def valMapS (m : List (String × ℚ)) : Val → Val
  | .str s =>
    match lookupS m s with
    | some q => .num q
    | none => .nan
  | _ => .nan

/-- Series.map with a numeric-keyed mapping: a key absent from the mapping
(or a non-numeric cell, in particular NaN) becomes NaN. -/
def valMapQ (m : List (ℚ × ℚ)) : Val → Val
  | .num q =>
    match lookupQ m q with
    | some v => .num v
    | none => .nan
  | _ => .nan

/-- Series.fillna applied to a single cell. -/
def valFillna (x : Val) : Val → Val
  | .nan => x
  | v => v

/-- Series.median of the stored values: sort, take the middle element, or
the mean of the two middle elements; NaN on an empty series. -/
def seriesMedian (l : List ℚ) : Val :=
  let s := l.insertionSort (· ≤ ·)
  let n := s.length
  if n = 0 then Val.nan
  else if n % 2 = 1 then Val.num (s.getD (n / 2) 0)
  else Val.num ((s.getD (n / 2 - 1) 0 + s.getD (n / 2) 0) / 2)

/-- mdc_code_mapping from src/cleaning_script.py: APR MDC Description to
APR MDC Code. -/
def mdc_code_mapping : List (String × ℚ) :=
  [("Pre-MDC or Ungroupable", 0),
   ("Diseases and Disorders of the Nervous System", 1),
   ("Diseases and Disorders of the Eye", 2),
   ("Ear, Nose, Mouth, Throat and Craniofacial Diseases and Disorders", 3),
   ("Diseases and Disorders of the Respiratory System", 4),
   ("Diseases and Disorders of the Circulatory System", 5),
   ("Diseases and Disorders of the Digestive System", 6),
   ("Diseases and Disorders of the Hepatobiliary System and Pancreas", 7),
   ("Diseases and Disorders of the Musculoskeletal System and Conn Tissue", 8),
   ("Diseases and Disorders of the Skin, Subcutaneous Tissue and Breast", 9),
   ("Endocrine, Nutritional and Metabolic Diseases and Disorders", 10),
   ("Diseases and Disorders of the Kidney and Urinary Tract", 11),
   ("Diseases and Disorders of the Male Reproductive System", 12),
   ("Diseases and Disorders of the Female Reproductive System", 13),
   ("Pregnancy, Childbirth and the Puerperium", 14),
   ("Newborns and Other Neonates with Conditions Originating in the Perinatal Period", 15),
   ("Diseases and Disorders of Blood, Blood Forming Organs and Immunological Disorders", 16),
   ("Lymphatic, Hematopoietic, Other Malignancies, Chemotherapy and Radiotherapy", 17),
   ("Infectious and Parasitic Diseases, Systemic or Unspecified Sites", 18),
   ("Mental Diseases and Disorders", 19),
   ("Alcohol/Drug Use and Alcohol/Drug Induced Organic Mental Disorders", 20),
   ("Poisonings, Toxic Effects, Other Injuries and Other Complications of Treatment", 21),
   ("Burns", 22),
   ("Rehabilitation, Aftercare, Other Factors Influencing Health Status and Other Health Service Contacts", 23),
   ("Human Immunodeficiency Virus Infections", 24),
   ("Multiple Significant Trauma", 25)]

/-- An Attribute Record: the 13 required admission attributes received by
the /api/predict endpoint (APR Severity of Illness Code is numeric, the
rest are strings). -/
structure AttrRecord where
  hospitalCounty : String
  facilityName : String
  ageGroup : String
  gender : String
  race : String
  ethnicity : String
  typeOfAdmission : String
  patientDisposition : String
  mdcDescription : String
  severityCode : ℚ
  medSurgDescription : String
  paymentTypology : String
  edIndicator : String
deriving DecidableEq

/-- The 14-column one-row DataFrame built by prepare_input_dataframe, in the
source's column order, with the given resolved APR MDC Code. -/
def preparedRow (r : AttrRecord) (code : ℚ) : Row :=
  [("Hospital County", Val.str r.hospitalCounty),
   ("Facility Name", Val.str r.facilityName),
   ("Age Group", Val.str r.ageGroup),
   ("Gender", Val.str r.gender),
   ("Race", Val.str r.race),
   ("Ethnicity", Val.str r.ethnicity),
   ("Type of Admission", Val.str r.typeOfAdmission),
   ("Patient Disposition", Val.str r.patientDisposition),
   ("APR MDC Code", Val.num code),
   ("APR MDC Description", Val.str r.mdcDescription),
   ("APR Severity of Illness Code", Val.num r.severityCode),
   ("APR Medical Surgical Description", Val.str r.medSurgDescription),
   ("Payment Typology 1", Val.str r.paymentTypology),
   ("Emergency Department Indicator", Val.str r.edIndicator)]

/-- prepare_input_dataframe from src/app.py: resolves the APR MDC Code by
dict indexing mdc_code_mapping with the description (KeyError, modelled as
none, when the description is not a key: no default is substituted) and
builds the 14-column input frame. -/
def prepare_input_dataframe (r : AttrRecord) : Option Row :=
  (lookupS mdc_code_mapping r.mdcDescription).map (fun code => preparedRow r code)

/-- The static tables loaded at process start in src/app.py:
feature_names.pkl (column_names, the Target Schema), mdc_mapping.pkl
(MDC code to median LOS), severity_mapping.pkl (severity code to median
LOS), and the description-to-code dict derived from
mdc_conversion_mapping.pkl on line 149. -/
structure Tables where
  column_names : List String
  mdc_mapping : List (ℚ × ℚ)
  severity_mapping : List (ℚ × ℚ)
  mdc_conversion_mapping1 : List (String × ℚ)

/-- Lines 146-163 of src/app.py: the three in-place column assignments that
encode_features performs on the DataFrame passed by its caller (the loaded
mapping tables are not None, so each guard reduces to the column test).
The result is the state of the caller's frame after the call; none models
the KeyError raised when a required source column is missing. -/
def mutatedInput (T : Tables) (df : Row) : Option Row :=
  (if hasCol df "APR MDC Code" then
      (colGet df "APR MDC Description").map
        (fun d => setCol df "APR MDC Code" (valMapS T.mdc_conversion_mapping1 d))
    else some df).bind (fun df1 =>
  (if hasCol df1 "APR MDC Code" then
      (colGet df1 "APR MDC Code").map
        (fun v => setCol df1 "LOS_per_MDC" (valMapQ T.mdc_mapping v))
    else some df1).bind (fun df2 =>
  if hasCol df2 "APR Severity of Illness Code" then
      (colGet df2 "APR Severity of Illness Code").map
        (fun v => setCol df2 "LOS_per_severity" (valMapQ T.severity_mapping v))
    else some df2))

/-- The indicator column contributed by one cell of a one-row frame:
string cells become a column named col_value holding 1; other cells
contribute nothing. -/
def dummyOf (p : String × Val) : Option (String × Val) :=
  match p.2 with
  | Val.str s => some (p.1 ++ "_" ++ s, Val.num 1)
  | _ => none

/-- pd.get_dummies on a one-row frame: non-string columns pass through
first in order, then each string column contributes one indicator column
named col_value with value 1, in column order. -/
def getDummies (df : Row) : Row :=
  df.filter (fun p => !p.2.isStr) ++ df.filterMap dummyOf

/-- Lines 197-199 of src/app.py: every schema column missing from the
encoded frame is added with value 0 (the iteration order over the Python
set is irrelevant to the reindexed result; schema order is used here). -/
def addMissing (schema : List String) (df : Row) : Row :=
  df ++ (schema.filter (fun c => !hasCol df c)).map (fun c => (c, Val.num 0))

/-- Lines 202-203 of src/app.py: drop the columns not in the schema. -/
def dropExtraCols (schema : List String) (df : Row) : Row :=
  df.filter (fun p => decide (p.1 ∈ schema))

/-- Sequence a list of Option results, as pandas column selection does:
fail as soon as one column is missing. -/
def mapO (f : α → Option β) : List α → Option (List β)
  | [] => some []
  | a :: l => (f a).bind (fun b => (mapO f l).map (fun bs => b :: bs))

/-- Line 206 of src/app.py: df_encoded[column_names], reindexing to the
schema order; KeyError (none) if a schema column is absent. -/
def reindexCols (schema : List String) (df : Row) : Option Row :=
  mapO (fun c => (colGet df c).map (fun v => (c, v))) schema

/-- encode_features from src/app.py (lines 128-211): mapping steps on the
caller's frame, drop of APR MDC Description (KeyError when absent),
one-hot expansion, and reconciliation against column_names. -/
def encode_features (T : Tables) (df : Row) : Option Row :=
  (mutatedInput T df).bind (fun dfm =>
  (if hasCol dfm "APR MDC Description" then some (dropCol dfm "APR MDC Description")
    else none).bind (fun dfdrop =>
  reindexCols T.column_names
    (dropExtraCols T.column_names
      (addMissing T.column_names (getDummies dfdrop)))))

/-- Module-level drop_list from src/cleaning_script.py. -/
def drop_list : List String :=
  ["Hospital Service Area", "Operating Certificate Number", "Permanent Facility Id",
   "Zip Code - 3 digits", "Discharge Year", "CCS Diagnosis Code", "CCS Diagnosis Description",
   "CCS Procedure Code", "CCS Procedure Description", "APR Severity of Illness Description",
   "APR DRG Code", "Payment Typology 2", "Payment Typology 3", "Birth Weight",
   "Length of Stay", "APR DRG Description", "APR MDC Description", "APR Risk of Mortality",
   "Abortion Edit Indicator", "Total Costs", "Total Charges"]

/-- Module-level cat_cols from src/cleaning_script.py. -/
def cat_cols : List String :=
  ["Hospital County", "Facility Name", "Age Group", "Gender", "Race", "Ethnicity",
   "Type of Admission", "Patient Disposition", "Payment Typology 1"]

/-- Module-level num_cols from src/cleaning_script.py. -/
def num_cols : List String := ["APR MDC Code", "APR Severity of Illness Code"]

/-- A fitted HospitalDataCleaner, as unpickled: its configured column lists,
the two fitted median-LOS mappings (pandas Series, not None after fit), and
the fitted OneHotEncoder state, i.e. the observed categories of each
categorical column in encoder column order. -/
structure HospitalDataCleaner where
  dropList : List String
  catFitted : List (String × List String)
  numCols : List String
  mdc_mapping : List (ℚ × ℚ)
  severity_mapping : List (ℚ × ℚ)

/-- self.feature_names stored in fit: the one-hot feature names from
get_feature_names_out (col_category) followed by num_cols. -/
def HospitalDataCleaner.feature_names (C : HospitalDataCleaner) : List String :=
  (C.catFitted.map (fun p => p.2.map (fun v => p.1 ++ "_" ++ v))).flatten ++ C.numCols

/-- Lines 86-87 of src/cleaning_script.py: replace the "120 +" sentinel by
120 and convert to int (numeric cells are truncated; LOS values are
nonnegative, where truncation and floor agree). -/
def losToInt : Val → Option Val
  | .str s => if s = "120 +" then some (Val.num 120) else (s.toInt?).map (fun n => Val.num n)
  | .num q => some (Val.num (Int.toNat q.floor))
  | .nan => none

/-- The Length of Stay branch of transform: applied only when the column is
present. -/
def losStep (df : Row) : Option Row :=
  if hasCol df "Length of Stay" then
    (colGet df "Length of Stay").bind
      (fun v => (losToInt v).map (fun v2 => setCol df "Length of Stay" v2))
  else some df

/-- Lines 89-95 of src/cleaning_script.py: map the codes through the fitted
median-LOS Series and fill the NaN of an unseen code with the median of the
stored values (self.mdc_mapping and self.severity_mapping are Series, hence
not None, on a fitted cleaner). -/
def HospitalDataCleaner.mapStep (C : HospitalDataCleaner) (df : Row) : Option Row :=
  (losStep df).bind (fun df0 =>
  (colGet df0 "APR MDC Code").map
    (fun v => setCol df0 "LOS_per_MDC"
      (valFillna (seriesMedian (C.mdc_mapping.map Prod.snd)) (valMapQ C.mdc_mapping v))) |>.bind
  (fun d1 =>
  (colGet d1 "APR Severity of Illness Code").map
    (fun v => setCol d1 "LOS_per_severity"
      (valFillna (seriesMedian (C.severity_mapping.map Prod.snd)) (valMapQ C.severity_mapping v)))))

/-- Lines 99-100 of src/cleaning_script.py: drop the configured irrelevant
columns, errors="ignore". -/
def HospitalDataCleaner.dropStep (C : HospitalDataCleaner) (df : Row) : Row :=
  if C.dropList.isEmpty then df else df.filter (fun p => decide (p.1 ∉ C.dropList))

/-- One fitted OneHotEncoder column with handle_unknown="ignore": the
indicator of each fitted category; a value outside the fitted categories
yields all zeros. -/
def oneHotBlock (cats : List String) (v : Val) : List Val :=
  cats.map (fun s => if v = Val.str s then Val.num 1 else Val.num 0)

/-- The fitted ColumnTransformer of line 64-69: one-hot blocks for the
categorical columns followed by the passthrough numeric columns; every
other column is dropped (the default remainder).  A listed column missing
from the frame is an error (none). -/
def HospitalDataCleaner.encoderStep (C : HospitalDataCleaner) (df : Row) : Option (List Val) :=
  (mapO (fun p => (colGet df p.1).map (oneHotBlock p.2)) C.catFitted).bind (fun catVals =>
  (mapO (fun c => colGet df c) C.numCols).map (fun numVals => catVals.flatten ++ numVals))

/-- HospitalDataCleaner.transform (lines 82-109 of src/cleaning_script.py)
with return_dataframe=True: works on a copy of X (the caller's frame is
not modified), applies the median-LOS mappings with median fallback, drops
the irrelevant columns and runs the fitted encoder, labelling the result
with the stored feature names. -/
def HospitalDataCleaner.transform (C : HospitalDataCleaner) (X : Row) : Option Row :=
  (C.mapStep X).bind (fun df =>
  (C.encoderStep (C.dropStep df)).map (fun vals => C.feature_names.zip vals))

/-- The required-field validation of /api/predict (lines 372-386 of
src/app.py): a request whose string fields include an empty value is
rejected with status 400 (the severity code is numeric, never equal to the
empty string; in this model every key is present). -/
def requiredEmpty (r : AttrRecord) : Bool :=
  decide (r.hospitalCounty = "") || decide (r.facilityName = "") ||
  decide (r.ageGroup = "") || decide (r.gender = "") || decide (r.race = "") ||
  decide (r.ethnicity = "") || decide (r.typeOfAdmission = "") ||
  decide (r.patientDisposition = "") || decide (r.mdcDescription = "") ||
  decide (r.medSurgDescription = "") || decide (r.paymentTypology = "") ||
  decide (r.edIndicator = "")

/-- The HTTP status returned by /api/predict (lines 351-439 of src/app.py)
as a function of the request record: 400 for the missing-field validation,
otherwise any exception in the try block - in particular the KeyError
raised inside prepare_input_dataframe by the description lookup - is caught
by the blanket except handler and returned as status 500; 200 when
preparation succeeds (model inference is external and assumed to return). -/
def predict_status (r : AttrRecord) : Nat :=
  if requiredEmpty r then 400
  else
    match prepare_input_dataframe r with
    | none => 500
    | some _ => 200

lemma strdata_append (a b : String) : (a ++ b).data = a.data ++ b.data := by
  cases a; cases b; rfl

lemma str_eq_of_data {s t : String} (h : s.data = t.data) : s = t := by
  cases s; cases t; exact congrArg String.mk h

lemma sep_data (a t : String) : (a ++ "_" ++ t).data = a.data ++ '_' :: t.data := by
  simp [strdata_append]

lemma sep_inj_aux (x : Char) :
    ∀ (l₁ l₂ t v : List Char), x ∉ l₁ → x ∉ l₂ →
      l₁ ++ x :: t = l₂ ++ x :: v → l₁ = l₂ ∧ t = v := by
  intro l₁
  induction l₁ with
  | nil =>
    intro l₂ t v _ h2 he
    cases l₂ with
    | nil => simpa using he
    | cons c l =>
      exfalso
      simp at he
      exact h2 (he.1 ▸ List.mem_cons_self c l)
  | cons c l ih =>
    intro l₂ t v h1 h2 he
    cases l₂ with
    | nil =>
      exfalso
      simp at he
      exact h1 (he.1 ▸ List.mem_cons_self x l)
    | cons c2 l2 =>
      simp at he
      obtain ⟨rfl, he2⟩ := he
      have h1' : x ∉ l := fun hx => h1 (List.mem_cons_of_mem _ hx)
      have h2' : x ∉ l2 := fun hx => h2 (List.mem_cons_of_mem _ hx)
      obtain ⟨hl, ht⟩ := ih l2 t v h1' h2' he2
      exact ⟨by rw [hl], ht⟩

/-- Splitting a dummy column name at its separator is unambiguous when the
attribute names contain no underscore: attribute_level names collide only
for equal attributes and equal levels. -/
lemma sep_inj {a b t v : String} (ha : ('_' : Char) ∉ a.data) (hb : ('_' : Char) ∉ b.data)
    (h : a ++ "_" ++ t = b ++ "_" ++ v) : a = b ∧ t = v := by
  have hd := congrArg String.data h
  rw [sep_data, sep_data] at hd
  obtain ⟨h1, h2⟩ := sep_inj_aux '_' a.data b.data t.data v.data ha hb hd
  exact ⟨str_eq_of_data h1, str_eq_of_data h2⟩

/-- A dummy column name contains an underscore, so it differs from any
underscore-free column name. -/
lemma sep_ne_of_no_sep {a t b : String} (hb : ('_' : Char) ∉ b.data) :
    a ++ "_" ++ t ≠ b := by
  intro h
  apply hb
  rw [← h, sep_data]
  simp

lemma colGet_map_schema (g : String → Val) (schema : List String) (c : String) :
    colGet (schema.map (fun c => (c, g c))) c =
      if c ∈ schema then some (g c) else none := by
  induction schema with
  | nil => simp [colGet]
  | cons a l ih =>
    by_cases h : a = c
    · subst h
      simp [colGet, List.find?_cons_of_pos]
    · have hstep : colGet ((a :: l).map (fun c => (c, g c))) c
          = colGet (l.map (fun c => (c, g c))) c := by
        simp only [List.map_cons, colGet]
        rw [List.find?_cons_of_neg _ (by simpa using h)]
      have hca : ¬ c = a := fun e => h e.symm
      rw [hstep, ih]
      simp [List.mem_cons, hca]

lemma colGet_filter (q : String × Val → Bool) (df : Row) (c : String)
    (hq : ∀ v, q (c, v) = true) :
    colGet (df.filter q) c = colGet df c := by
  induction df with
  | nil => rfl
  | cons p l ih =>
    by_cases h : p.1 = c
    · have hp : q p = true := by
        obtain ⟨p1, p2⟩ := p
        simp only at h
        subst h
        exact hq p2
      rw [List.filter_cons_of_pos hp]
      simp only [colGet]
      rw [List.find?_cons_of_pos _ (by simpa using h), List.find?_cons_of_pos _ (by simpa using h)]
    · cases hp : q p with
      | true =>
        rw [List.filter_cons_of_pos hp]
        simp only [colGet] at ih ⊢
        rw [List.find?_cons_of_neg _ (by simpa using h), List.find?_cons_of_neg _ (by simpa using h)]
        exact ih
      | false =>
        rw [List.filter_cons_of_neg (by simp [hp])]
        simp only [colGet] at ih ⊢
        rw [ih, List.find?_cons_of_neg _ (by simpa using h)]

lemma colGet_dropExtra (schema : List String) (df : Row) (c : String) (hc : c ∈ schema) :
    colGet (dropExtraCols schema df) c = colGet df c := by
  apply colGet_filter
  intro v
  simpa using hc

lemma colGet_append (df₁ df₂ : Row) (c : String) :
    colGet (df₁ ++ df₂) c = (colGet df₁ c).or (colGet df₂ c) := by
  simp [colGet, List.find?_append]
  cases List.find? (fun p => decide (p.1 = c)) df₁ <;> simp

lemma colGet_zeros (l : List String) (c : String) (h : c ∈ l) :
    colGet (l.map (fun c => (c, Val.num 0))) c = some (Val.num 0) := by
  rw [colGet_map_schema (fun _ => Val.num 0) l c]
  simp [h]

lemma hasCol_eq_isSome (df : Row) (c : String) : hasCol df c = (colGet df c).isSome := by
  induction df with
  | nil => rfl
  | cons p l ih =>
    by_cases h : p.1 = c
    · simp only [hasCol, List.any_cons, colGet]
      rw [List.find?_cons_of_pos _ (by simpa using h)]
      simp [h]
    · simp only [hasCol, List.any_cons, colGet] at ih ⊢
      rw [List.find?_cons_of_neg _ (by simpa using h)]
      simp [h, ih]

lemma colGet_addMissing (schema : List String) (df : Row) (c : String) (hc : c ∈ schema) :
    colGet (addMissing schema df) c = some ((colGet df c).getD (Val.num 0)) := by
  rw [addMissing, colGet_append]
  cases h : colGet df c with
  | some v => simp
  | none =>
    have hmem : c ∈ schema.filter (fun c => !hasCol df c) := by
      rw [List.mem_filter]
      refine ⟨hc, ?_⟩
      rw [hasCol_eq_isSome, h]
      rfl
    simp [colGet_zeros _ _ hmem]

lemma mapO_some (f : α → Option β) (g : α → β) (l : List α)
    (h : ∀ a ∈ l, f a = some (g a)) : mapO f l = some (l.map g) := by
  induction l with
  | nil => rfl
  | cons a l ih =>
    have ha := h a (List.mem_cons_self a l)
    have hl := ih (fun x hx => h x (List.mem_cons_of_mem a hx))
    simp [mapO, ha, hl]

lemma mapO_length (f : α → Option β) (l : List α) (l2 : List β)
    (h : mapO f l = some l2) : l2.length = l.length := by
  induction l generalizing l2 with
  | nil => simp [mapO] at h; simp [← h]
  | cons a l ih =>
    simp only [mapO] at h
    cases hf : f a with
    | none => rw [hf] at h; simp at h
    | some b =>
      rw [hf] at h
      cases hm : mapO f l with
      | none => rw [hm] at h; simp at h
      | some bs =>
        rw [hm] at h
        simp at h
        have := ih bs hm
        simp [← h, this]

/-- The reconciliation of lines 195-206 of src/app.py collapses to a map
over the schema: every schema column takes the encoded frame's value when
present and 0 otherwise, in schema order. -/
lemma reconcile_eq (schema : List String) (df : Row) :
    reindexCols schema (dropExtraCols schema (addMissing schema df)) =
      some (schema.map (fun c => (c, (colGet df c).getD (Val.num 0)))) := by
  apply mapO_some
  intro c hc
  rw [colGet_dropExtra _ _ _ hc, colGet_addMissing _ _ _ hc]
  rfl

/-- The categorical attributes of a prepared record that get_dummies
expands (the string-valued columns left after dropping APR MDC
Description), paired with the level the record expresses, in column
order. -/
def catLevels (r : AttrRecord) : List (String × String) :=
  [("Hospital County", r.hospitalCounty),
   ("Facility Name", r.facilityName),
   ("Age Group", r.ageGroup),
   ("Gender", r.gender),
   ("Race", r.race),
   ("Ethnicity", r.ethnicity),
   ("Type of Admission", r.typeOfAdmission),
   ("Patient Disposition", r.patientDisposition),
   ("APR Medical Surgical Description", r.medSurgDescription),
   ("Payment Typology 1", r.paymentTypology),
   ("Emergency Department Indicator", r.edIndicator)]

/-- The numeric columns of the encoded frame before reconciliation: the
description-mapped APR MDC Code, the severity code, and the two derived
median-LOS features (unfilled NaN when a key is unseen). -/
def numericPart (T : Tables) (r : AttrRecord) : Row :=
  [("APR MDC Code", valMapS T.mdc_conversion_mapping1 (Val.str r.mdcDescription)),
   ("APR Severity of Illness Code", Val.num r.severityCode),
   ("LOS_per_MDC", valMapQ T.mdc_mapping (valMapS T.mdc_conversion_mapping1 (Val.str r.mdcDescription))),
   ("LOS_per_severity", valMapQ T.severity_mapping (Val.num r.severityCode))]

/-- The one-hot expanded frame that encode_features reconciles against the
schema when called on a prepared record. -/
def dummyRow (T : Tables) (r : AttrRecord) : Row :=
  numericPart T r ++ (catLevels r).map (fun p => (p.1 ++ "_" ++ p.2, Val.num 1))

/-- The state of the caller's DataFrame after encode_features returns: the
APR MDC Code column is overwritten with the description-mapped value and
the two derived columns are appended; everything else is untouched. -/
def mutRow (T : Tables) (r : AttrRecord) : Row :=
  [("Hospital County", Val.str r.hospitalCounty),
   ("Facility Name", Val.str r.facilityName),
   ("Age Group", Val.str r.ageGroup),
   ("Gender", Val.str r.gender),
   ("Race", Val.str r.race),
   ("Ethnicity", Val.str r.ethnicity),
   ("Type of Admission", Val.str r.typeOfAdmission),
   ("Patient Disposition", Val.str r.patientDisposition),
   ("APR MDC Code", valMapS T.mdc_conversion_mapping1 (Val.str r.mdcDescription)),
   ("APR MDC Description", Val.str r.mdcDescription),
   ("APR Severity of Illness Code", Val.num r.severityCode),
   ("APR Medical Surgical Description", Val.str r.medSurgDescription),
   ("Payment Typology 1", Val.str r.paymentTypology),
   ("Emergency Department Indicator", Val.str r.edIndicator),
   ("LOS_per_MDC", valMapQ T.mdc_mapping (valMapS T.mdc_conversion_mapping1 (Val.str r.mdcDescription))),
   ("LOS_per_severity", valMapQ T.severity_mapping (Val.num r.severityCode))]

lemma isStr_str (s : String) : (Val.str s).isStr = true := rfl

lemma isStr_num (q : ℚ) : (Val.num q).isStr = false := rfl

lemma isStr_valMapS (m : List (String × ℚ)) (v : Val) : (valMapS m v).isStr = false := by
  cases v with
  | str s => cases h : lookupS m s <;> simp [valMapS, h, Val.isStr]
  | num q => rfl
  | nan => rfl

lemma isStr_valMapQ (m : List (ℚ × ℚ)) (v : Val) : (valMapQ m v).isStr = false := by
  cases v with
  | num q => cases h : lookupQ m q <;> simp [valMapQ, h, Val.isStr]
  | str s => rfl
  | nan => rfl

lemma dummyOf_str (c s : String) : dummyOf (c, Val.str s) = some (c ++ "_" ++ s, Val.num 1) := rfl

lemma dummyOf_num (c : String) (q : ℚ) : dummyOf (c, Val.num q) = none := rfl

lemma dummyOf_of_not_isStr (p : String × Val) (h : p.2.isStr = false) : dummyOf p = none := by
  obtain ⟨c, v⟩ := p
  cases v with
  | str s => simp [Val.isStr] at h
  | num q => rfl
  | nan => rfl

lemma dummyOf_valMapS (c : String) (m : List (String × ℚ)) (v : Val) :
    dummyOf (c, valMapS m v) = none :=
  dummyOf_of_not_isStr _ (isStr_valMapS m v)

lemma dummyOf_valMapQ (c : String) (m : List (ℚ × ℚ)) (v : Val) :
    dummyOf (c, valMapQ m v) = none :=
  dummyOf_of_not_isStr _ (isStr_valMapQ m v)

lemma mutatedInput_prepared (T : Tables) (r : AttrRecord) (code : ℚ) :
    mutatedInput T (preparedRow r code) = some (mutRow T r) := rfl

lemma mutatedInput_mutRow (T : Tables) (r : AttrRecord) :
    mutatedInput T (mutRow T r) = some (mutRow T r) := rfl

lemma getDummies_mutRow (T : Tables) (r : AttrRecord) :
    getDummies (dropCol (mutRow T r) "APR MDC Description") = dummyRow T r := by
  simp [mutRow, dropCol, getDummies, dummyRow, numericPart, catLevels,
    isStr_valMapS, isStr_valMapQ, isStr_str, isStr_num,
    dummyOf_str, dummyOf_num, dummyOf_valMapS, dummyOf_valMapQ]

/-- encode_features on a prepared record collapses to a map over the
schema: each schema column takes its value from the one-hot expanded frame
when present, and 0 otherwise, in schema order. -/
lemma encode_features_prepared (T : Tables) (r : AttrRecord) (code : ℚ) :
    encode_features T (preparedRow r code) =
      some (T.column_names.map (fun c => (c, (colGet (dummyRow T r) c).getD (Val.num 0)))) := by
  have hdesc : hasCol (mutRow T r) "APR MDC Description" = true := rfl
  rw [encode_features, mutatedInput_prepared]
  simp only [Option.some_bind, hdesc, if_true, getDummies_mutRow, reconcile_eq]

/-- A second call of encode_features on the frame mutated by a first call
produces the same collapsed result. -/
lemma encode_features_mutRow (T : Tables) (r : AttrRecord) :
    encode_features T (mutRow T r) =
      some (T.column_names.map (fun c => (c, (colGet (dummyRow T r) c).getD (Val.num 0)))) := by
  have hdesc : hasCol (mutRow T r) "APR MDC Description" = true := rfl
  rw [encode_features, mutatedInput_mutRow]
  simp only [Option.some_bind, hdesc, if_true, getDummies_mutRow, reconcile_eq]

lemma colGet_dummyRow_code (T : Tables) (r : AttrRecord) :
    colGet (dummyRow T r) "APR MDC Code" =
      some (valMapS T.mdc_conversion_mapping1 (Val.str r.mdcDescription)) := rfl

lemma colGet_dummyRow_losMDC (T : Tables) (r : AttrRecord) :
    colGet (dummyRow T r) "LOS_per_MDC" =
      some (valMapQ T.mdc_mapping (valMapS T.mdc_conversion_mapping1 (Val.str r.mdcDescription))) := rfl

lemma colGet_dummyRow_losSev (T : Tables) (r : AttrRecord) :
    colGet (dummyRow T r) "LOS_per_severity" =
      some (valMapQ T.severity_mapping (Val.num r.severityCode)) := rfl

/-- The names of the categorical attributes expanded by get_dummies. -/
def dummyAttrNames : List String :=
  ["Hospital County", "Facility Name", "Age Group", "Gender", "Race", "Ethnicity",
   "Type of Admission", "Patient Disposition", "APR Medical Surgical Description",
   "Payment Typology 1", "Emergency Department Indicator"]

lemma catLevels_fst (r : AttrRecord) : (catLevels r).map Prod.fst = dummyAttrNames := rfl

lemma dummyAttrNames_no_sep : ∀ a ∈ dummyAttrNames, ('_' : Char) ∉ a.data := by decide

/-- Splitting the value 1 out of the collapsed frame: a column of the
one-hot expanded frame that holds 1 and has the shape attribute_level for
one of the expanded attributes must be the indicator of the level the
record expresses for that attribute. -/
lemma dummyRow_one_name {T : Tables} {r : AttrRecord} {a t : String}
    (ha : a ∈ dummyAttrNames)
    (h : colGet (dummyRow T r) (a ++ "_" ++ t) = some (Val.num 1)) :
    (a, t) ∈ catLevels r := by
  have hna : ('_' : Char) ∉ a.data := dummyAttrNames_no_sep a ha
  rw [colGet] at h
  cases hf : (dummyRow T r).find? (fun p => decide (p.1 = a ++ "_" ++ t)) with
  | none => rw [hf] at h; simp at h
  | some e =>
    rw [hf] at h
    simp at h
    have he1 : e.1 = a ++ "_" ++ t := by
      have := List.find?_some hf
      simpa using this
    have hmem : e ∈ dummyRow T r := List.mem_of_find?_eq_some hf
    rw [dummyRow, List.mem_append] at hmem
    rcases hmem with hnum | hdum
    · exfalso
      simp only [numericPart, List.mem_cons, List.not_mem_nil, or_false] at hnum
      rcases hnum with rfl | rfl | rfl | rfl
      · exact absurd he1.symm
          (sep_ne_of_no_sep (show ('_' : Char) ∉ ("APR MDC Code" : String).data from by decide))
      · exact absurd he1.symm
          (sep_ne_of_no_sep
            (show ('_' : Char) ∉ ("APR Severity of Illness Code" : String).data from by decide))
      · have h2 : a ++ "_" ++ t = "LOS" ++ "_" ++ "per_MDC" := he1.symm
        obtain ⟨ha2, -⟩ :=
          sep_inj hna (show ('_' : Char) ∉ ("LOS" : String).data from by decide) h2
        rw [ha2] at ha
        exact absurd ha (by decide)
      · have h2 : a ++ "_" ++ t = "LOS" ++ "_" ++ "per_severity" := he1.symm
        obtain ⟨ha2, -⟩ :=
          sep_inj hna (show ('_' : Char) ∉ ("LOS" : String).data from by decide) h2
        rw [ha2] at ha
        exact absurd ha (by decide)
    · obtain ⟨p, hp, he⟩ := List.mem_map.mp hdum
      have hp1 : ('_' : Char) ∉ p.1.data := by
        apply dummyAttrNames_no_sep
        rw [← catLevels_fst r]
        exact List.mem_map_of_mem Prod.fst hp
      have : p.1 ++ "_" ++ p.2 = a ++ "_" ++ t := by rw [← he1, ← he]
      obtain ⟨hpa, hpt⟩ := sep_inj hp1 hna this
      rw [← hpa, ← hpt]
      simpa using hp

lemma sep_ne_attr {a b : String} (t v : String) (hna : ('_' : Char) ∉ a.data)
    (hnb : ('_' : Char) ∉ b.data) (hab : a ≠ b) : a ++ "_" ++ t ≠ b ++ "_" ++ v :=
  fun h => hab (sep_inj hna hnb h).1

/-- An association list whose keys are distinct is functional. -/
lemma keys_fn {α β : Type} : ∀ (l : List (α × β)) (a : α) (x y : β),
    (l.map Prod.fst).Nodup → (a, x) ∈ l → (a, y) ∈ l → x = y := by
  intro l
  induction l with
  | nil =>
    intro a x y _ h1 _
    simp at h1
  | cons p t ih =>
    intro a x y hnd h1 h2
    rw [List.map_cons, List.nodup_cons] at hnd
    have key : ∀ z : β, (a, z) ∈ t → a ∈ t.map Prod.fst := fun z hz => by
      rw [List.mem_map]
      exact ⟨(a, z), hz, rfl⟩
    rcases List.mem_cons.mp h1 with e1 | m1
    · rcases List.mem_cons.mp h2 with e2 | m2
      · exact (Prod.ext_iff.mp (e1.trans e2.symm)).2
      · exact absurd (congrArg Prod.fst e1 ▸ key y m2) hnd.1
    · rcases List.mem_cons.mp h2 with e2 | m2
      · exact absurd (congrArg Prod.fst e2 ▸ key x m1) hnd.1
      · exact ih a x y hnd.2 m1 m2

/-- The expressed level of an attribute is unique: two levels recorded for
the same attribute name in catLevels coincide, since the attribute names
are pairwise distinct. -/
lemma catLevels_fn {r : AttrRecord} {a x y : String}
    (h1 : (a, x) ∈ catLevels r) (h2 : (a, y) ∈ catLevels r) : x = y :=
  keys_fn (catLevels r) a x y (by rw [catLevels_fst]; decide) h1 h2

lemma map_fst_pair (l : List String) (g : String → Val) :
    (l.map (fun c => (c, g c))).map Prod.fst = l := by
  induction l with
  | nil => rfl
  | cons a l ih => simp only [List.map_cons, ih]

lemma encodeOut_fst (T : Tables) (r : AttrRecord) :
    (T.column_names.map
      (fun c => (c, (colGet (dummyRow T r) c).getD (Val.num 0)))).map Prod.fst =
      T.column_names :=
  map_fst_pair _ _

lemma find?_numericPart_none (T : Tables) (r : AttrRecord) (a t : String)
    (hna : ('_' : Char) ∉ a.data) (hlos : a ≠ "LOS") :
    (numericPart T r).find? (fun p => decide (p.1 = a ++ "_" ++ t)) = none := by
  rw [List.find?_eq_none]
  intro x hx
  simp only [numericPart, List.mem_cons, List.not_mem_nil, or_false] at hx
  rcases hx with rfl | rfl | rfl | rfl <;> simp only [decide_eq_true_eq]
  · intro h
    exact sep_ne_of_no_sep (show ('_' : Char) ∉ ("APR MDC Code" : String).data from by decide)
      h.symm
  · intro h
    exact sep_ne_of_no_sep
      (show ('_' : Char) ∉ ("APR Severity of Illness Code" : String).data from by decide) h.symm
  · intro h
    have h2 : a ++ "_" ++ t = "LOS" ++ "_" ++ "per_MDC" := h.symm
    exact hlos (sep_inj hna (show ('_' : Char) ∉ ("LOS" : String).data from by decide) h2).1
  · intro h
    have h2 : a ++ "_" ++ t = "LOS" ++ "_" ++ "per_severity" := h.symm
    exact hlos (sep_inj hna (show ('_' : Char) ∉ ("LOS" : String).data from by decide) h2).1

/-- The record's own Age Group indicator is present in the one-hot
expanded frame with value 1. -/
lemma colGet_dummyRow_age (T : Tables) (r : AttrRecord) :
    colGet (dummyRow T r) ("Age Group" ++ "_" ++ r.ageGroup) = some (Val.num 1) := by
  have hAG : ('_' : Char) ∉ ("Age Group" : String).data := by decide
  rw [colGet, dummyRow, List.find?_append,
    find?_numericPart_none T r "Age Group" r.ageGroup hAG (by decide)]
  simp only [catLevels, List.map_cons, List.map_nil]
  rw [List.find?_cons_of_neg _
      (by simp only [decide_eq_true_eq]
          exact sep_ne_attr _ _ (by decide) hAG (by decide)),
    List.find?_cons_of_neg _
      (by simp only [decide_eq_true_eq]
          exact sep_ne_attr _ _ (by decide) hAG (by decide)),
    List.find?_cons_of_pos _ (by simp)]
  rfl

/-- Any other Age Group indicator is absent from the one-hot expanded
frame. -/
lemma colGet_dummyRow_age_other (T : Tables) (r : AttrRecord) (s : String)
    (hs : s ≠ r.ageGroup) :
    colGet (dummyRow T r) ("Age Group" ++ "_" ++ s) = none := by
  have hAG : ('_' : Char) ∉ ("Age Group" : String).data := by decide
  rw [colGet, dummyRow, List.find?_append,
    find?_numericPart_none T r "Age Group" s hAG (by decide)]
  have hdum : ((catLevels r).map (fun p => (p.1 ++ "_" ++ p.2, Val.num 1))).find?
      (fun p => decide (p.1 = "Age Group" ++ "_" ++ s)) = none := by
    rw [List.find?_eq_none]
    intro x hx
    obtain ⟨p, hp, rfl⟩ := List.mem_map.mp hx
    simp only [decide_eq_true_eq]
    intro h
    have hp1 : ('_' : Char) ∉ p.1.data := by
      apply dummyAttrNames_no_sep
      rw [← catLevels_fst r]
      exact List.mem_map_of_mem Prod.fst hp
    obtain ⟨hpa, hpt⟩ := sep_inj hp1 hAG h
    have hag : ("Age Group", r.ageGroup) ∈ catLevels r := by simp [catLevels]
    have : p.2 = r.ageGroup := catLevels_fn (hpa ▸ hp) hag
    exact hs (hpt.symm.trans this)
  rw [hdum]
  rfl

/-- find? over the indicator part of a one-hot frame built from a keyed
level list with underscore-free, pairwise-distinct keys: the lookup of an
attribute_level name finds exactly the indicator of that pair. -/
lemma find?_dummy_list : ∀ (l : List (String × String)) (a t : String),
    (∀ p ∈ l, ('_' : Char) ∉ p.1.data) →
    ('_' : Char) ∉ a.data →
    (l.map Prod.fst).Nodup →
    ((l.map (fun p => (p.1 ++ "_" ++ p.2, Val.num 1))).find?
        (fun p => decide (p.1 = a ++ "_" ++ t)) =
      if (a, t) ∈ l then some (a ++ "_" ++ t, Val.num 1) else none) := by
  intro l
  induction l with
  | nil =>
    intro a t _ _ _
    simp
  | cons p l ih =>
    intro a t hsep hna hnd
    rw [List.map_cons, List.nodup_cons] at hnd
    obtain ⟨hnd1, hnd2⟩ := hnd
    have hp1 : ('_' : Char) ∉ p.1.data := hsep p (List.mem_cons_self p l)
    have hsep2 : ∀ x ∈ l, ('_' : Char) ∉ x.1.data :=
      fun x hx => hsep x (List.mem_cons_of_mem p hx)
    by_cases hpa : p.1 = a
    · by_cases hpt : p.2 = t
      · have hpe : p = (a, t) := by
          obtain ⟨p1, p2⟩ := p
          simp only at hpa hpt
          rw [hpa, hpt]
        rw [List.map_cons, List.find?_cons_of_pos _ (by simp [hpe]),
          if_pos (by rw [hpe]; exact List.mem_cons_self _ _), hpe]
      · have hneq : ¬(p.1 ++ "_" ++ p.2 = a ++ "_" ++ t) := fun h =>
          hpt (sep_inj hp1 hna h).2
        rw [List.map_cons, List.find?_cons_of_neg _ (by simpa using hneq),
          ih a t hsep2 hna hnd2]
        have hnotl : (a, t) ∉ l := by
          intro hm
          apply hnd1
          rw [hpa]
          exact List.mem_map.mpr ⟨(a, t), hm, rfl⟩
        have hnotc : (a, t) ∉ p :: l := by
          intro hm
          rcases List.mem_cons.mp hm with he | hl2
          · exact hpt (congrArg Prod.snd he.symm)
          · exact hnotl hl2
        rw [if_neg hnotl, if_neg hnotc]
    · have hneq : ¬(p.1 ++ "_" ++ p.2 = a ++ "_" ++ t) := fun h =>
        hpa (sep_inj hp1 hna h).1
      rw [List.map_cons, List.find?_cons_of_neg _ (by simpa using hneq),
        ih a t hsep2 hna hnd2]
      have hmemiff : ((a, t) ∈ p :: l) = ((a, t) ∈ l) := by
        simp [List.mem_cons,
          show ¬((a, t) = p) from fun he => hpa (congrArg Prod.fst he).symm]
      by_cases hm : (a, t) ∈ l
      · rw [if_pos hm, if_pos (List.mem_cons_of_mem p hm)]
      · rw [if_neg hm, if_neg (fun hc => hm (hmemiff ▸ hc))]

/-- Indicator columns of the one-hot expanded frame, for every cataloged
attribute: attribute_level is present with value 1 exactly when the record
expresses that level for that attribute. -/
lemma colGet_dummyRow_attr (T : Tables) (r : AttrRecord) (a t : String)
    (ha : a ∈ dummyAttrNames) :
    colGet (dummyRow T r) (a ++ "_" ++ t) =
      (if (a, t) ∈ catLevels r then some (Val.num 1) else none) := by
  have hna : ('_' : Char) ∉ a.data := dummyAttrNames_no_sep a ha
  have hlosa : a ≠ "LOS" :=
    (show ∀ x ∈ dummyAttrNames, x ≠ "LOS" from by decide) a ha
  rw [colGet, dummyRow, List.find?_append, find?_numericPart_none T r a t hna hlosa,
    find?_dummy_list (catLevels r) a t
      (fun p hp => dummyAttrNames_no_sep p.1
        (by rw [← catLevels_fst r]; exact List.mem_map_of_mem Prod.fst hp))
      hna (by rw [catLevels_fst]; decide)]
  by_cases hm : (a, t) ∈ catLevels r
  · rw [if_pos hm, if_pos hm]
    rfl
  · rw [if_neg hm, if_neg hm]
    rfl

lemma find?_setmap (l : Row) (c c' : String) (v : Val) (h : c ≠ c') :
    (l.map (fun p => if p.1 = c then (c, v) else p)).find? (fun p => decide (p.1 = c')) =
      l.find? (fun p => decide (p.1 = c')) := by
  induction l with
  | nil => rfl
  | cons p l ih =>
    by_cases hp : p.1 = c
    · rw [List.map_cons, if_pos hp]
      rw [List.find?_cons_of_neg _ (by simpa using h),
        List.find?_cons_of_neg _ (by simp only [decide_eq_true_eq]; rw [hp]; exact h)]
      exact ih
    · rw [List.map_cons, if_neg hp]
      by_cases hp' : p.1 = c'
      · rw [List.find?_cons_of_pos _ (by simpa using hp'),
          List.find?_cons_of_pos _ (by simpa using hp')]
      · rw [List.find?_cons_of_neg _ (by simpa using hp'),
          List.find?_cons_of_neg _ (by simpa using hp')]
        exact ih

lemma colGet_setCol_ne (df : Row) (c c' : String) (v : Val) (h : c ≠ c') :
    colGet (setCol df c v) c' = colGet df c' := by
  rw [setCol]
  by_cases hc : hasCol df c = true
  · rw [if_pos hc, colGet, colGet, find?_setmap df c c' v h]
  · rw [if_neg hc, colGet, colGet, List.find?_append]
    have hone : ([(c, v)] : Row).find? (fun p => decide (p.1 = c')) = none := by
      simp [h]
    rw [hone]
    cases df.find? (fun p => decide (p.1 = c')) <;> rfl

lemma find?_setmap_self (l : Row) (c : String) (v : Val) (hc : hasCol l c = true) :
    (l.map (fun p => if p.1 = c then (c, v) else p)).find? (fun p => decide (p.1 = c)) =
      some (c, v) := by
  induction l with
  | nil => simp [hasCol] at hc
  | cons p l ih =>
    by_cases hp : p.1 = c
    · rw [List.map_cons, if_pos hp, List.find?_cons_of_pos _ (by simp)]
    · rw [List.map_cons, if_neg hp, List.find?_cons_of_neg _ (by simpa using hp)]
      apply ih
      simp only [hasCol, List.any_cons, Bool.or_eq_true, decide_eq_true_eq] at hc
      rcases hc with h | h
      · exact absurd h hp
      · exact h

lemma colGet_setCol_self (df : Row) (c : String) (v : Val) :
    colGet (setCol df c v) c = some v := by
  rw [setCol]
  by_cases hc : hasCol df c = true
  · rw [if_pos hc, colGet, find?_setmap_self df c v hc]
    rfl
  · rw [if_neg hc, colGet, List.find?_append]
    have h1 : df.find? (fun p => decide (p.1 = c)) = none := by
      rw [List.find?_eq_none]
      intro x hx hpx
      apply hc
      rw [hasCol, List.any_eq_true]
      exact ⟨x, hx, hpx⟩
    rw [h1, List.find?_cons_of_pos _ (by simp)]
    rfl

/-- The witness tables: a small schema together with small lookup tables. -/
def T0 : Tables :=
  ⟨["Age Group_70+", "Age Group_50-69", "Gender_F", "APR MDC Code",
    "APR Severity of Illness Code", "LOS_per_MDC", "LOS_per_severity"],
   [(22, 10)], [(4, 7), (1, 2), (2, 3)], [("Burns", 22)]⟩

/-- The witness record: a Burns admission of a 70+ patient with severity 4. -/
def r0 : AttrRecord :=
  ⟨"Albany", "General Hospital", "70+", "F", "White", "Not Spanish",
   "Emergency", "Home", "Burns", 4, "Medical", "Medicare", "Y"⟩

/-- C1: for every valid Attribute Record, the encoder's output has exactly
the Target Schema's length and its columns appear in exactly the Target
Schema's order (the concrete width, 312 in the deployed artifact, is the
length of the loaded column_names list). -/
theorem C1_schema_conformance (T : Tables) (r : AttrRecord) (row : Row)
    (h : prepare_input_dataframe r = some row) :
    ∃ out, encode_features T row = some out ∧
      out.length = T.column_names.length ∧ out.map Prod.fst = T.column_names := by
  rw [prepare_input_dataframe] at h
  cases hl : lookupS mdc_code_mapping r.mdcDescription with
  | none => rw [hl] at h; simp at h
  | some code =>
    rw [hl] at h
    have hrow : row = preparedRow r code := (Option.some.inj h).symm
    subst hrow
    refine ⟨_, encode_features_prepared T r code, ?_, encodeOut_fst T r⟩
    rw [List.length_map]

theorem C1_witness : ∃ out, encode_features T0 (preparedRow r0 22) = some out ∧
    out.length = T0.column_names.length ∧ out.map Prod.fst = T0.column_names :=
  C1_schema_conformance T0 r0 (preparedRow r0 22) (by decide)

/-- C7: the fixed-width comparison that encode_features evaluates before
returning (line 209 of src/app.py) is true for every input on which the
function returns: the output length always equals len(column_names), so
the SchemaMismatchError branch of the specification is unreachable and no
such error can ever be raised or tolerated. -/
theorem C7_postcondition (T : Tables) (df : Row) (out : Row)
    (h : encode_features T df = some out) :
    out.length = T.column_names.length ∧
    decide (out.length = T.column_names.length) = true := by
  rw [encode_features] at h
  cases hm : mutatedInput T df with
  | none => rw [hm] at h; simp at h
  | some dfm =>
    rw [hm] at h
    simp only [Option.some_bind] at h
    by_cases hd : hasCol dfm "APR MDC Description" = true
    · rw [if_pos hd] at h
      simp only [Option.some_bind] at h
      rw [reindexCols] at h
      have := mapO_length _ _ _ h
      exact ⟨this, by simp [this]⟩
    · rw [if_neg hd] at h
      simp at h

/-- The concrete encoder output for the witness record and tables. -/
def out0 : Row :=
  [("Age Group_70+", Val.num 1), ("Age Group_50-69", Val.num 0), ("Gender_F", Val.num 1),
   ("APR MDC Code", Val.num 22), ("APR Severity of Illness Code", Val.num 4),
   ("LOS_per_MDC", Val.num 10), ("LOS_per_severity", Val.num 7)]

theorem C7_witness : encode_features T0 (preparedRow r0 22) = some out0 ∧
    (out0.length = T0.column_names.length ∧
      decide (out0.length = T0.column_names.length) = true) :=
  ⟨by decide, C7_postcondition T0 (preparedRow r0 22) out0 (by decide)⟩

/-- C8: repeated calls of encode_features with the same record and
unchanged static tables return equal vectors.  The first call mutates the
caller's frame (overwriting APR MDC Code and appending the derived
columns), so the second call actually receives the mutated frame; it
returns the same vector, and the frame is a fixed point of the mutation,
so every further call behaves identically. -/
theorem C8_idempotent (T : Tables) (r : AttrRecord) (code : ℚ) :
    encode_features T (mutRow T r) = encode_features T (preparedRow r code) ∧
    mutatedInput T (mutRow T r) = some (mutRow T r) :=
  ⟨(encode_features_mutRow T r).trans (encode_features_prepared T r code).symm,
   mutatedInput_mutRow T r⟩

/-- C6 fails as stated: encode_features is not pure with respect to its
input; the call mutates the passed DataFrame. -/
theorem C6_counterexample :
    mutatedInput T0 (preparedRow r0 22) ≠ some (preparedRow r0 22) := by decide

/-- C6 (amended): encode_features leaves the lookup tables, exclusion list
and Target Schema unchanged (they are read-only parameters), but it does
mutate the input DataFrame: APR MDC Code is overwritten with the
description-mapped value and the two derived LOS columns are appended;
apart from those three columns the frame is unchanged.
HospitalDataCleaner.transform copies its input (df = X.copy()) and so
never mutates it. -/
theorem C6_frame (T : Tables) (r : AttrRecord) (code : ℚ) :
    mutatedInput T (preparedRow r code) = some (mutRow T r) ∧
    dropCol (dropCol (mutRow T r) "LOS_per_severity") "LOS_per_MDC" =
      setCol (preparedRow r code) "APR MDC Code"
        (valMapS T.mdc_conversion_mapping1 (Val.str r.mdcDescription)) :=
  ⟨mutatedInput_prepared T r code, rfl⟩

/-- C10: a record whose APR MDC Description is absent from the conversion
mapping gets NaN written over APR MDC Code by the Series.map, LOS_per_MDC
then maps NaN to NaN, and a full-length schema-ordered vector containing
the NaN values is returned with no error raised. -/
theorem C10_unknown_description (T : Tables) (r : AttrRecord) (code : ℚ)
    (hun : lookupS T.mdc_conversion_mapping1 r.mdcDescription = none)
    (h1 : "APR MDC Code" ∈ T.column_names) (h2 : "LOS_per_MDC" ∈ T.column_names) :
    ∃ out, encode_features T (preparedRow r code) = some out ∧
      colGet out "APR MDC Code" = some Val.nan ∧
      colGet out "LOS_per_MDC" = some Val.nan ∧
      out.length = T.column_names.length ∧
      out.map Prod.fst = T.column_names := by
  refine ⟨_, encode_features_prepared T r code, ?_, ?_, by rw [List.length_map],
    encodeOut_fst T r⟩
  · rw [colGet_map_schema, if_pos h1, colGet_dummyRow_code]
    simp [valMapS, hun]
  · rw [colGet_map_schema, if_pos h2, colGet_dummyRow_losMDC]
    simp [valMapS, valMapQ, hun]

/-- Witness tables for C10: the conversion mapping lacks every
description. -/
def T10 : Tables :=
  ⟨["Age Group_70+", "Age Group_50-69", "Gender_F", "APR MDC Code",
    "APR Severity of Illness Code", "LOS_per_MDC", "LOS_per_severity"],
   [(22, 10)], [(4, 7), (1, 2)], []⟩

theorem C10_witness : ∃ out, encode_features T10 (preparedRow r0 22) = some out ∧
    colGet out "APR MDC Code" = some Val.nan ∧
    colGet out "LOS_per_MDC" = some Val.nan ∧
    out.length = T10.column_names.length ∧
    out.map Prod.fst = T10.column_names :=
  C10_unknown_description T10 r0 22 (by decide) (by decide) (by decide)

/-- C4: a record expressing a level never seen during training for a
cataloged attribute is encoded without error into a vector of the schema's
exact length and order in which no indicator column of that attribute
holds 1: the unseen level contributes only zeros. -/
theorem C4_unseen_level (T : Tables) (r : AttrRecord) (code : ℚ) (a lvl : String)
    (ha : (a, lvl) ∈ catLevels r)
    (hun : (a ++ "_" ++ lvl) ∉ T.column_names) :
    ∃ out, encode_features T (preparedRow r code) = some out ∧
      out.length = T.column_names.length ∧
      out.map Prod.fst = T.column_names ∧
      ∀ t, colGet out (a ++ "_" ++ t) ≠ some (Val.num 1) := by
  refine ⟨_, encode_features_prepared T r code, by rw [List.length_map],
    encodeOut_fst T r, ?_⟩
  intro t hc
  rw [colGet_map_schema] at hc
  by_cases hmem : (a ++ "_" ++ t) ∈ T.column_names
  · rw [if_pos hmem] at hc
    have hone : colGet (dummyRow T r) (a ++ "_" ++ t) = some (Val.num 1) := by
      cases hg : colGet (dummyRow T r) (a ++ "_" ++ t) with
      | none =>
        rw [hg] at hc
        exact absurd hc (by decide)
      | some v =>
        rw [hg] at hc
        exact hc
    have haN : a ∈ dummyAttrNames := by
      rw [← catLevels_fst r]
      exact List.mem_map_of_mem Prod.fst ha
    have hmem2 : (a, t) ∈ catLevels r := dummyRow_one_name haN hone
    have ht : t = lvl := catLevels_fn hmem2 ha
    rw [ht] at hmem
    exact hun hmem
  · rw [if_neg hmem] at hc
    exact absurd hc (by simp)

/-- Witness record for C4: identical to r0 except that the Age Group level
is one the schema has never seen. -/
def r4 : AttrRecord :=
  ⟨"Albany", "General Hospital", "18-29", "F", "White", "Not Spanish",
   "Emergency", "Home", "Burns", 4, "Medical", "Medicare", "Y"⟩

theorem C4_witness : ∃ out, encode_features T0 (preparedRow r4 22) = some out ∧
    out.length = T0.column_names.length ∧
    out.map Prod.fst = T0.column_names ∧
    ∀ t, colGet out ("Age Group" ++ "_" ++ t) ≠ some (Val.num 1) :=
  C4_unseen_level T0 r4 22 "Age Group" "18-29" (by decide) (by decide)

/-- C5: for every record whose expressed categorical levels are all
present in the training schema, each expressed level's indicator column in
the output equals 1 and every other indicator column of that attribute
equals 0; concretely, with Age Group 70+, Severity Code 4 and MDC
Description Burns, the output has Age Group_70+ equal to 1 and every
other Age Group indicator equal to 0, LOS_per_MDC equal to the stored
median LOS of the MDC code of Burns (code 22), LOS_per_severity equal to
the stored median for severity 4, and the schema's length, 312 for the
deployed schema. -/
theorem C5_levels_in_schema (T : Tables) :
    (∀ (r : AttrRecord) (code : ℚ),
      (∀ p ∈ catLevels r, (p.1 ++ "_" ++ p.2) ∈ T.column_names) →
      ∃ out, encode_features T (preparedRow r code) = some out ∧
        (∀ a lvl, (a, lvl) ∈ catLevels r →
          colGet out (a ++ "_" ++ lvl) = some (Val.num 1)) ∧
        (∀ a lvl t, (a, lvl) ∈ catLevels r → t ≠ lvl →
          (a ++ "_" ++ t) ∈ T.column_names →
          colGet out (a ++ "_" ++ t) = some (Val.num 0))) ∧
    (∀ (r : AttrRecord) (code m v : ℚ),
      r.ageGroup = "70+" → r.severityCode = 4 → r.mdcDescription = "Burns" →
      lookupS T.mdc_conversion_mapping1 "Burns" = some 22 →
      lookupQ T.mdc_mapping 22 = some m →
      lookupQ T.severity_mapping 4 = some v →
      "Age Group_70+" ∈ T.column_names →
      "LOS_per_MDC" ∈ T.column_names →
      "LOS_per_severity" ∈ T.column_names →
      T.column_names.length = 312 →
      lookupS mdc_code_mapping "Burns" = some 22 ∧
      ∃ out, encode_features T (preparedRow r code) = some out ∧
        out.length = 312 ∧
        colGet out "Age Group_70+" = some (Val.num 1) ∧
        (∀ s, s ≠ "70+" → ("Age Group" ++ "_" ++ s) ∈ T.column_names →
          colGet out ("Age Group" ++ "_" ++ s) = some (Val.num 0)) ∧
        colGet out "LOS_per_MDC" = some (Val.num m) ∧
        colGet out "LOS_per_severity" = some (Val.num v)) := by
  constructor
  · intro r code hall
    refine ⟨_, encode_features_prepared T r code, ?_, ?_⟩
    · intro a lvl hm
      have haN : a ∈ dummyAttrNames := by
        rw [← catLevels_fst r]
        exact List.mem_map_of_mem Prod.fst hm
      rw [colGet_map_schema, if_pos (hall (a, lvl) hm),
        colGet_dummyRow_attr T r a lvl haN, if_pos hm]
      rfl
    · intro a lvl t hm hne hmem
      have haN : a ∈ dummyAttrNames := by
        rw [← catLevels_fst r]
        exact List.mem_map_of_mem Prod.fst hm
      have hnotm : (a, t) ∉ catLevels r := fun hmt => hne (catLevels_fn hmt hm)
      rw [colGet_map_schema, if_pos hmem, colGet_dummyRow_attr T r a t haN,
        if_neg hnotm]
      rfl
  · intro r code m v hage hsev hdesc hconv hm hv hmem1 hmemM hmemS hlen
    refine ⟨by decide, _, encode_features_prepared T r code,
      by rw [List.length_map, hlen], ?_, ?_, ?_, ?_⟩
    · have h70 : ("Age Group" ++ "_" ++ "70+" : String) = "Age Group_70+" := rfl
      have hself := colGet_dummyRow_age T r
      rw [hage, h70] at hself
      rw [colGet_map_schema, if_pos hmem1, hself]
      rfl
    · intro s hs hmem
      have hother := colGet_dummyRow_age_other T r s (by rw [hage]; exact hs)
      rw [colGet_map_schema, if_pos hmem, hother]
      rfl
    · rw [colGet_map_schema, if_pos hmemM, colGet_dummyRow_losMDC, hdesc]
      simp [valMapS, valMapQ, hconv, hm]
    · rw [colGet_map_schema, if_pos hmemS, colGet_dummyRow_losSev, hsev]
      simp [valMapQ, hv]

/-- Witness tables for C5: the full indicator set of the witness record
plus the numeric columns, padded to the deployed width of 312 columns. -/
def T5 : Tables :=
  ⟨["Hospital County_Albany", "Facility Name_General Hospital", "Age Group_70+",
    "Age Group_50-69", "Gender_F", "Race_White", "Ethnicity_Not Spanish",
    "Type of Admission_Emergency", "Patient Disposition_Home",
    "APR Medical Surgical Description_Medical", "Payment Typology 1_Medicare",
    "Emergency Department Indicator_Y", "APR MDC Code", "APR Severity of Illness Code",
    "LOS_per_MDC", "LOS_per_severity"] ++ List.replicate 296 "pad",
   [(22, 10)], [(4, 7), (1, 2)], [("Burns", 22)]⟩

theorem C5_witness :
    (∃ out, encode_features T5 (preparedRow r0 22) = some out ∧
      (∀ a lvl, (a, lvl) ∈ catLevels r0 →
        colGet out (a ++ "_" ++ lvl) = some (Val.num 1)) ∧
      (∀ a lvl t, (a, lvl) ∈ catLevels r0 → t ≠ lvl →
        (a ++ "_" ++ t) ∈ T5.column_names →
        colGet out (a ++ "_" ++ t) = some (Val.num 0))) ∧
    (lookupS mdc_code_mapping "Burns" = some 22 ∧
     ∃ out, encode_features T5 (preparedRow r0 22) = some out ∧
       out.length = 312 ∧
       colGet out "Age Group_70+" = some (Val.num 1) ∧
       (∀ s, s ≠ "70+" → ("Age Group" ++ "_" ++ s) ∈ T5.column_names →
         colGet out ("Age Group" ++ "_" ++ s) = some (Val.num 0)) ∧
       colGet out "LOS_per_MDC" = some (Val.num 10) ∧
       colGet out "LOS_per_severity" = some (Val.num 7)) :=
  ⟨(C5_levels_in_schema T5).1 r0 22 (by decide),
   (C5_levels_in_schema T5).2 r0 22 10 7 rfl rfl rfl (by decide) (by decide)
     (by decide) (by decide) (by decide) (by decide) (by decide)⟩

/-- Witness record for C2: severity code 9, absent from the severity
lookup. -/
def r2 : AttrRecord :=
  ⟨"Albany", "General Hospital", "70+", "F", "White", "Not Spanish",
   "Emergency", "Home", "Burns", 9, "Medical", "Medicare", "Y"⟩

/-- C2 fails as stated for encode_features in src/app.py: for a severity
code absent from the severity lookup the derived LOS_per_severity is NaN
(the plain Series.map of lines 158-161 has no fillna), not the stored
median of the lookup table. -/
theorem C2_counterexample :
    (encode_features T0 (preparedRow r2 22)).isSome = true ∧
    colGet ((encode_features T0 (preparedRow r2 22)).getD []) "LOS_per_severity" =
      some Val.nan ∧
    lookupQ T0.severity_mapping 9 = none ∧
    seriesMedian (T0.severity_mapping.map Prod.snd) = Val.num 3 ∧
    Val.nan ≠ Val.num 3 := by decide

/-- C2 (amended): the median substitution for unseen codes is performed by
HospitalDataCleaner.transform (lines 89-95 of src/cleaning_script.py):
both an MDC code absent from the MDC lookup and a severity code absent
from the severity lookup get the respective table's median of stored
values via fillna, and no error is raised; the re-implementation
encode_features in src/app.py instead leaves the derived features
LOS_per_MDC and LOS_per_severity NaN for unseen codes, also without
raising. -/
theorem C2_median_fallback (C : HospitalDataCleaner) (df : Row) (q qm : ℚ)
    (hlos : hasCol df "Length of Stay" = false)
    (hmc : colGet df "APR MDC Code" = some (Val.num qm))
    (hqm : lookupQ C.mdc_mapping qm = none)
    (hsc : colGet df "APR Severity of Illness Code" = some (Val.num q))
    (hq : lookupQ C.severity_mapping q = none)
    (T : Tables) (r : AttrRecord) (code qm2 : ℚ)
    (hconv : lookupS T.mdc_conversion_mapping1 r.mdcDescription = some qm2)
    (hq2 : lookupQ T.mdc_mapping qm2 = none)
    (hsev : lookupQ T.severity_mapping r.severityCode = none)
    (hmemM : "LOS_per_MDC" ∈ T.column_names)
    (hmem : "LOS_per_severity" ∈ T.column_names) :
    (∃ d, C.mapStep df = some d ∧
      colGet d "LOS_per_MDC" =
        some (seriesMedian (C.mdc_mapping.map Prod.snd)) ∧
      colGet d "LOS_per_severity" =
        some (seriesMedian (C.severity_mapping.map Prod.snd))) ∧
    (∃ out, encode_features T (preparedRow r code) = some out ∧
      colGet out "LOS_per_MDC" = some Val.nan ∧
      colGet out "LOS_per_severity" = some Val.nan) := by
  constructor
  · have hls : losStep df = some df := by
      rw [losStep, hlos]
      rfl
    have h1 : C.mapStep df =
        some (setCol
          (setCol df "LOS_per_MDC"
            (valFillna (seriesMedian (C.mdc_mapping.map Prod.snd))
              (valMapQ C.mdc_mapping (Val.num qm))))
          "LOS_per_severity"
          (valFillna (seriesMedian (C.severity_mapping.map Prod.snd))
            (valMapQ C.severity_mapping (Val.num q)))) := by
      rw [HospitalDataCleaner.mapStep, hls]
      simp only [Option.some_bind]
      rw [hmc]
      simp only [Option.map_some', Option.some_bind]
      rw [colGet_setCol_ne _ _ _ _ (by decide), hsc]
      rfl
    refine ⟨_, h1, ?_, ?_⟩
    · rw [colGet_setCol_ne _ _ _ _ (by decide), colGet_setCol_self]
      simp [valMapQ, hqm, valFillna]
    · rw [colGet_setCol_self]
      simp [valMapQ, hq, valFillna]
  · refine ⟨_, encode_features_prepared T r code, ?_, ?_⟩
    · rw [colGet_map_schema, if_pos hmemM, colGet_dummyRow_losMDC]
      simp [valMapS, hconv, valMapQ, hq2]
    · rw [colGet_map_schema, if_pos hmem, colGet_dummyRow_losSev]
      simp [valMapQ, hsev]

/-- Witness cleaner for C2: fitted on one categorical column, with the
module-level drop_list and num_cols and small median tables in which the
witness record's MDC code 22 and severity code 9 are both unseen. -/
def C2cleaner : HospitalDataCleaner :=
  ⟨drop_list, [("Gender", ["F", "M"])], num_cols, [(25, 11)], [(4, 7), (1, 2), (2, 3)]⟩

/-- Witness tables for C2: the conversion mapping sends Burns to code 23,
which is absent from the MDC median lookup, and severity 9 is absent from
the severity lookup. -/
def T2 : Tables :=
  ⟨["Age Group_70+", "Age Group_50-69", "Gender_F", "APR MDC Code",
    "APR Severity of Illness Code", "LOS_per_MDC", "LOS_per_severity"],
   [(22, 10)], [(4, 7), (1, 2), (2, 3)], [("Burns", 23)]⟩

theorem C2_witness :
    (∃ d, C2cleaner.mapStep (preparedRow r2 22) = some d ∧
      colGet d "LOS_per_MDC" =
        some (seriesMedian (C2cleaner.mdc_mapping.map Prod.snd)) ∧
      colGet d "LOS_per_severity" =
        some (seriesMedian (C2cleaner.severity_mapping.map Prod.snd))) ∧
    (∃ out, encode_features T2 (preparedRow r2 22) = some out ∧
      colGet out "LOS_per_MDC" = some Val.nan ∧
      colGet out "LOS_per_severity" = some Val.nan) :=
  C2_median_fallback C2cleaner (preparedRow r2 22) 9 22
    (by decide) (by decide) (by decide) (by decide) (by decide) T2 r2 22 23
    (by decide) (by decide) (by decide) (by decide) (by decide)

/-- Witness record for C3: the description is not a key of
mdc_code_mapping. -/
def rBad : AttrRecord :=
  ⟨"Albany", "General Hospital", "70+", "F", "White", "Not Spanish",
   "Emergency", "Home", "Common Cold", 4, "Medical", "Medicare", "Y"⟩

/-- C3 fails as stated on the status code: for an unknown description the
lookup KeyError is caught by the blanket except handler of /api/predict
and surfaced as HTTP 500, not as a 4xx condition (no vector is produced
and no default code is substituted, as the claim says). -/
theorem C3_counterexample :
    lookupS mdc_code_mapping rBad.mdcDescription = none ∧
    prepare_input_dataframe rBad = none ∧
    predict_status rBad = 500 ∧ predict_status rBad ≠ 400 := by decide

/-- C3 (amended): for every record passing the required-field validation
whose APR MDC Description is not in the lookup, the dict indexing raises
KeyError, no DataFrame or vector is produced and no default code is
substituted; /api/predict surfaces the error as status 500 (server
error), not as a 4xx condition. -/
theorem C3_unknown_description (r : AttrRecord)
    (hne : requiredEmpty r = false)
    (hun : lookupS mdc_code_mapping r.mdcDescription = none) :
    prepare_input_dataframe r = none ∧ predict_status r = 500 := by
  have hp : prepare_input_dataframe r = none := by
    rw [prepare_input_dataframe, hun]
    rfl
  refine ⟨hp, ?_⟩
  rw [predict_status, hne]
  simp [hp]

theorem C3_witness : prepare_input_dataframe rBad = none ∧ predict_status rBad = 500 :=
  C3_unknown_description rBad (by decide) (by decide)

/-- A HospitalDataCleaner configured exactly by the module-level constants
of src/cleaning_script.py, fitted on arbitrary categories and median
tables. -/
def srcCleaner (f : String → List String) (mdcm sevm : List (ℚ × ℚ)) : HospitalDataCleaner :=
  ⟨drop_list, cat_cols.map (fun c => (c, f c)), num_cols, mdcm, sevm⟩

/-- C9 (amended): the two encoders do not agree column for column in
general.  With the cleaner configured by the module-level cat_cols and
num_cols, the output of HospitalDataCleaner.transform never contains a
LOS_per_MDC column, whatever categories were fitted, while encode_features
emits every column of the Target Schema; so whenever the schema contains
the derived feature LOS_per_MDC the two outputs differ in their columns.
They can only coincide when the schema is exactly the cleaner's fitted
feature-name list. -/
theorem C9_structural_divergence (f : String → List String) (mdcm sevm : List (ℚ × ℚ)) :
    "LOS_per_MDC" ∉ (srcCleaner f mdcm sevm).feature_names ∧
    ∀ (T : Tables) (r : AttrRecord) (code : ℚ) (out : Row),
      "LOS_per_MDC" ∈ T.column_names →
      encode_features T (preparedRow r code) = some out →
      "LOS_per_MDC" ∈ out.map Prod.fst := by
  constructor
  · intro hmem
    simp only [srcCleaner, HospitalDataCleaner.feature_names, List.mem_append] at hmem
    rcases hmem with hcat | hnum
    · rw [List.mem_flatten] at hcat
      obtain ⟨l, hl, hml⟩ := hcat
      rw [List.mem_map] at hl
      obtain ⟨p, hp, rfl⟩ := hl
      rw [List.mem_map] at hml
      obtain ⟨v, hv, he⟩ := hml
      rw [List.mem_map] at hp
      obtain ⟨c, hc, rfl⟩ := hp
      have h2 : c ++ "_" ++ v = "LOS" ++ "_" ++ "per_MDC" := he
      have hnoc : ('_' : Char) ∉ c.data :=
        (show ∀ x ∈ cat_cols, ('_' : Char) ∉ x.data from by decide) c hc
      have hcl : c = "LOS" :=
        (sep_inj hnoc (show ('_' : Char) ∉ ("LOS" : String).data from by decide) h2).1
      rw [hcl] at hc
      exact absurd hc (by decide)
    · exact absurd hnum (by decide)
  · intro T r code out hmem henc
    rw [encode_features_prepared] at henc
    have hout := Option.some.inj henc
    rw [← hout, encodeOut_fst]
    exact hmem

/-- The fitted categories of the witness cleaner for C9: each of the nine
categorical columns saw exactly the level the witness record expresses. -/
def f9 : String → List String := fun c =>
  if c = "Hospital County" then ["Albany"]
  else if c = "Facility Name" then ["General Hospital"]
  else if c = "Age Group" then ["70+"]
  else if c = "Gender" then ["F"]
  else if c = "Race" then ["White"]
  else if c = "Ethnicity" then ["Not Spanish"]
  else if c = "Type of Admission" then ["Emergency"]
  else if c = "Patient Disposition" then ["Home"]
  else if c = "Payment Typology 1" then ["Medicare"]
  else []

def C9cleaner : HospitalDataCleaner := srcCleaner f9 [(22, 10)] [(4, 7), (1, 2)]

/-- Witness tables for C9: the schema extends the cleaner's feature names
with the two derived LOS columns, as the specified Target Schema does. -/
def T9 : Tables :=
  ⟨C9cleaner.feature_names ++ ["LOS_per_MDC", "LOS_per_severity"],
   [(22, 10)], [(4, 7), (1, 2)], [("Burns", 22)]⟩

/-- C9 fails as stated: on the same prepared record, with consistent
tables, both encoders succeed yet return different vectors (the pipeline
encoder emits no LOS_per_MDC or LOS_per_severity column). -/
theorem C9_counterexample :
    (C9cleaner.transform (preparedRow r0 22)).isSome = true ∧
    (encode_features T9 (preparedRow r0 22)).isSome = true ∧
    C9cleaner.transform (preparedRow r0 22) ≠ encode_features T9 (preparedRow r0 22) := by
  decide

/-- The concrete encode_features output for the C9 witness. -/
def out9 : Row :=
  [("Hospital County_Albany", Val.num 1), ("Facility Name_General Hospital", Val.num 1),
   ("Age Group_70+", Val.num 1), ("Gender_F", Val.num 1), ("Race_White", Val.num 1),
   ("Ethnicity_Not Spanish", Val.num 1), ("Type of Admission_Emergency", Val.num 1),
   ("Patient Disposition_Home", Val.num 1), ("Payment Typology 1_Medicare", Val.num 1),
   ("APR MDC Code", Val.num 22), ("APR Severity of Illness Code", Val.num 4),
   ("LOS_per_MDC", Val.num 10), ("LOS_per_severity", Val.num 7)]

theorem C9_witness :
    "LOS_per_MDC" ∉ (srcCleaner f9 [(22, 10)] [(4, 7), (1, 2)]).feature_names ∧
    "LOS_per_MDC" ∈ out9.map Prod.fst :=
  ⟨(C9_structural_divergence f9 [(22, 10)] [(4, 7), (1, 2)]).1,
   (C9_structural_divergence f9 [(22, 10)] [(4, 7), (1, 2)]).2 T9 r0 22 out9
     (by decide) (by decide)⟩
